import Mathlib

/-!
# Verification of the salt-extension-migrate path/rewrite core

A shallow embedding of the two core engines of `saltext_migrate`
(`src/saltext_migrate/migrate.py` and `src/saltext_migrate/rewrite.py`):

* the path rename & collision resolver (`Migration.__post_init__`,
  `Migration._rename`, `Migration._rename_potentially_colliding_test`);
* the module-import rewriter (`rewrite_module_imports`);
* the `__utils__` dunder-call classifier/rewriter (`UtilsMigrator`).

Paths are modelled as lists of segments (mirroring `pathlib.PurePath.parts`);
`dict` fields are modelled as association lists with insert-or-update
semantics; fallible code returns `Except`.  Filesystem state
(`Path.exists()`) is modelled as an explicit list of existing paths.
-/

deriving instance DecidableEq for Except

namespace SaltextMigrate

/-- A filesystem path, as its ordered sequence of segments
(mirrors `pathlib.PurePath.parts`). -/
abbrev PyPath := List String

/-! ## `pathlib` name handling: `stem`, `suffix`, `with_stem`

`pathlib` takes the suffix of a file name to start at the last dot `i` of
the name with `0 < i < len(name) - 1`; otherwise the suffix is empty. -/

/-- Index of the dot starting the `pathlib` suffix of a file name, if any:
the last index `i` of a dot with `0 < i < length - 1`. -/
def lastSuffixDot (cs : List Char) : Option Nat :=
  ((List.range cs.length).filter
    (fun i => cs.getD i ' ' = '.' ∧ 0 < i ∧ i + 1 < cs.length)).getLast?

/-- `pathlib` `stem` of a file name. -/
def pyStem (name : String) : String :=
  match lastSuffixDot name.data with
  | some i => ⟨name.data.take i⟩
  | none => name

/-- `pathlib` `suffix` of a file name. -/
def pySuffix (name : String) : String :=
  match lastSuffixDot name.data with
  | some i => ⟨name.data.drop i⟩
  | none => ""

/-- `p.with_stem(pyStem(last) ++ suf)`: replace the stem of the last
segment by the stem with `suf` appended, keeping the suffix
(models `new.with_stem(new.stem + suf)` in `_rename_potentially_colliding_test`). -/
def stemSuffix (p : PyPath) (suf : String) : PyPath :=
  match p.getLast? with
  | none => p
  | some last => p.dropLast ++ [pyStem last ++ suf ++ pySuffix last]

/-! ## Association lists with Python `dict` assignment semantics -/

/-- The keys of an association list (Python `dict` keys / `in` test). -/
def keysOf (m : List (PyPath × PyPath)) : List PyPath := m.map Prod.fst

/-- Python `d[k] = v`: update in place if the key is present, else append. -/
def upsert (m : List (PyPath × PyPath)) (k v : PyPath) : List (PyPath × PyPath) :=
  if k ∈ keysOf m then
    m.map (fun kv => if kv.1 = k then (k, v) else kv)
  else
    m ++ [(k, v)]

/-! ## The rename/collision resolver (`migrate.py`, `Migration`) -/

/-- Context of one migration run: the selected candidate paths (`self.result`,
in processing order), the saltext name, the paths existing on disk in the
Salt checkout (backing `Path.exists()`), and the `avoid_collisions` flag. -/
structure MigCtx where
  saltextName : String
  result : List PyPath
  fs : List PyPath
  avoidCollisions : Bool
deriving Repr, DecidableEq

/-- Mutable state built by `Migration.__post_init__`: `self.renames` and
`self.conflicts`, both Python dicts. -/
structure RenameState where
  renames : List (PyPath × PyPath)
  conflicts : List (PyPath × PyPath)
deriving Repr, DecidableEq

/-- Errors raised by `Migration._rename`: `TargetPathExists(new)` and the
plain `ValueError` for a no-op rename. -/
inductive MigError where
  | targetPathExists (p : PyPath)
  | noOpRename (p : PyPath)
deriving Repr, DecidableEq

/-- The guard of `Migration._rename`:
`new in self.result and new.exists() and new not in self.renames`. -/
def CollisionTarget (ctx : MigCtx) (st : RenameState) (new : PyPath) : Prop :=
  new ∈ ctx.result ∧ new ∈ ctx.fs ∧ new ∉ keysOf st.renames

instance (ctx : MigCtx) (st : RenameState) (new : PyPath) :
    Decidable (CollisionTarget ctx st new) :=
  inferInstanceAs (Decidable (_ ∧ _ ∧ _))

/-- `Migration._rename(old, new)` (migrate.py lines 214-219):
raise `TargetPathExists` when the guard holds, raise the no-op `ValueError`
when `old == new`, else record `self.renames[old] = new`. -/
def saltextRename (ctx : MigCtx) (st : RenameState) (old new : PyPath) :
    Except MigError RenameState :=
  if CollisionTarget ctx st new then
    .error (.targetPathExists new)
  else if old = new then
    .error (.noOpRename old)
  else
    .ok { st with renames := upsert st.renames old new }

/-- `Migration._rename_potentially_colliding_test(old, new)`
(migrate.py lines 221-241).  Note `avoid_collisions` is a *local* variable:
setting it after a conflict affects only the current call. -/
def renameColliding (ctx : MigCtx) (st : RenameState) (old new : PyPath) :
    Except MigError RenameState :=
  if ctx.avoidCollisions then do
    let st ← saltextRename ctx st new (stemSuffix new "_old")
    saltextRename ctx st old (stemSuffix new "_pytest")
  else
    match saltextRename ctx st old new with
    | .ok st => .ok st
    | .error (.targetPathExists _) => do
      let st := { st with conflicts := upsert st.conflicts old new }
      let st ← saltextRename ctx st new (stemSuffix new "_old")
      saltextRename ctx st old (stemSuffix new "_pytest")
    | .error e => .error e

/-- The new path computed for a module-code path (`parts[0] == "salt"`),
migrate.py lines 160-168.  The second branch compares
`path.parts[1:3]` — a *two*-element slice — against the three-tuple
`("client", "ssh", "wrapper")`, which is embedded faithfully as comparing
`(p.drop 1).take 2` with the three-element list. -/
def moduleNewPath (name : String) (p : PyPath) : PyPath :=
  if (p.drop 1).take 1 = ["cloud"] then
    ["src", "saltext", name] ++ p.drop 2
  else if (p.drop 1).take 2 = ["client", "ssh", "wrapper"] then
    ["src", "saltext", name] ++ p.drop 3
  else
    ["src", "saltext", name] ++ p.drop 1

/-- The new path computed for a pytest-style test path
(`parts[:2] == ("tests", "pytests")`), migrate.py lines 174-194. -/
def pytestNewPath (p : PyPath) : PyPath :=
  if (p.drop 3).take 1 = ["cloud"] then
    "tests" :: ((p.drop 2).take 1 ++ p.drop 4)
  else if p.take 4 = ["tests", "pytests", "integration", "ssh"] then
    ["tests", "integration", "wrapper"] ++ p.drop 4
  else if p.take 6 = ["tests", "pytests", "unit", "client", "ssh", "wrapper"] then
    ["tests", "unit", "wrapper"] ++ p.drop 6
  else
    "tests" :: p.drop 2

/-- Membership test for `Migration.modules`: `parts[0] == "salt"`. -/
def isModulePath (p : PyPath) : Bool := p.take 1 = ["salt"]

/-- Membership test for `Migration.pytests`: `parts[:2] == ("tests", "pytests")`. -/
def isPytestPath (p : PyPath) : Bool := p.take 2 = ["tests", "pytests"]

/-- Membership test for `Migration.non_pytests`:
`suffix == ".py" and parts[0] == "tests" and parts[1] in ("unit", "integration")`. -/
def isNonPytestPath (p : PyPath) : Bool :=
  pySuffix (p.getLastD "") = ".py" && p.take 1 = ["tests"] &&
    ((p.drop 1).take 1 = ["unit"] || (p.drop 1).take 1 = ["integration"])

/-- Membership test for `Migration.pytest_support`:
`parts[:3] == ("tests", "support", "pytest")`. -/
def isPytestSupportPath (p : PyPath) : Bool := p.take 3 = ["tests", "support", "pytest"]

/-- Membership test for `Migration.doc`: `parts[0] == "doc"`. -/
def isDocPath (p : PyPath) : Bool := p.take 1 = ["doc"]

/-- The whole rename pass of `Migration.__post_init__` (migrate.py
lines 159-212): modules, then pytest tests, then non-pytest cloud tests,
then pytest support fixtures, then docs.  Python iterates over `set`s
built by filtering `self.result`; the iteration order is captured by the
order of `ctx.result`. -/
def migRun (ctx : MigCtx) : Except MigError RenameState := do
  let st : RenameState := ⟨[], []⟩
  let st ← (ctx.result.filter isModulePath).foldlM
    (fun st p => saltextRename ctx st p (moduleNewPath ctx.saltextName p)) st
  let st ← (ctx.result.filter isPytestPath).foldlM
    (fun st p => renameColliding ctx st p (pytestNewPath p)) st
  let st ← (ctx.result.filter isNonPytestPath).foldlM
    (fun st p =>
      if (p.drop 2).take 1 = ["cloud"] then
        renameColliding ctx st p ("tests" :: ((p.drop 1).take 1 ++ p.drop 3))
      else
        .ok st) st
  let st ← (ctx.result.filter isPytestSupportPath).foldlM
    (fun st p => saltextRename ctx st p (["tests", "support"] ++ p.drop 3)) st
  (ctx.result.filter isDocPath).foldlM
    (fun st p => saltextRename ctx st p ("docs" :: p.drop 1)) st

/-! ## The module-import rewriter (`rewrite.py`, `rewrite_module_imports`)

`rewrite_module_imports` builds one bowler `Query` over the destination
tree and, for each migrated module path `salt/<m₁>/…/<mₖ>.py`, chains

* `select_module("salt.<m>")` + `rename("saltext.<name>.<m>")` for plain
  dotted references, and
* `select_module("salt.<parent>")` filtered to
  `from salt.<parent> import <leaf>` + `rename("saltext.<name>.<parent>")`
  for `from`-imports.

We embed the syntax objects the query matches: a dotted reference is its
list of name segments, a `from`-import is its parent segments plus leaf
name.  A `select_module`d rename replaces the matched dotted-module
prefix, keeping any trailing attribute chain. -/

/-- A reference to a module inside a Python file, as matched by bowler:
either a plain dotted reference (possibly with a trailing attribute chain,
all given as segments), or a `from <parent> import <leaf>` statement. -/
inductive PyRef where
  | dotted (segs : List String)
  | fromImport (parent : List String) (leaf : String)
deriving Repr, DecidableEq

/-- One `select_module`/`filter`/`rename` pass for one migrated module
`m` (the module's dotted path parts relative to the `salt` tree root,
e.g. `["modules", "mysql"]`): rewrite `salt.<m>…` to `saltext.<name>.<m>…`
and `from salt.<m-parent> import <m-leaf>` to the renamed parent. -/
def rewriteStep (name : String) (m : List String) : PyRef → PyRef
  | .dotted segs =>
    if ("salt" :: m).isPrefixOf segs then
      .dotted ("saltext" :: name :: m ++ segs.drop (m.length + 1))
    else
      .dotted segs
  | .fromImport parent leaf =>
    if parent = "salt" :: m.dropLast ∧ some leaf = m.getLast? then
      .fromImport ("saltext" :: name :: m.dropLast) leaf
    else
      .fromImport parent leaf

/-- All passes of `rewrite_module_imports` over one reference: the query
chains one step per migrated module. -/
def rewriteRef (name : String) (mods : List (List String)) (r : PyRef) : PyRef :=
  mods.foldl (fun r m => rewriteStep name m r) r

/-- `rewrite_module_imports` over a source tree, modelled as the list of
module references contained in its files. -/
def rewriteTree (name : String) (mods : List (List String)) (t : List PyRef) : List PyRef :=
  t.map (rewriteRef name mods)

/-! ## The `__utils__` classifier/rewriter (`rewrite.py`, `UtilsMigrator`)

`UtilsMigrator` collects, for every `*.py` file under the Salt checkout's
`salt/utils` directory and under the destination tree's
`src/saltext/<name>/utils` directory, the outcome of `DunderParser`
(declared `__virtualname__`, whether any Salt dunder name is referenced).
The parse outcomes are carried as attributes of the modelled files. -/

/-- Python's `str.split(".")` on the character list of a string. -/
def splitDots : List Char → List (List Char)
  | [] => [[]]
  | c :: rest =>
    if c = '.' then [] :: splitDots rest
    else
      match splitDots rest with
      | [] => [[c]]
      | h :: t => (c :: h) :: t

/-- `d in p.parents`: `d` is a strict ancestor directory of `p`. -/
def strictlyUnder (d p : PyPath) : Bool :=
  d.isPrefixOf p && decide (d.length < p.length)

/-- `pathlib` `stem` of the last segment of a path. -/
def fileStem (p : PyPath) : String := pyStem (p.getLastD "")

/-- `p.with_suffix("")`: drop the suffix of the last segment. -/
def dropSuffixLast (p : PyPath) : List String :=
  p.dropLast ++ [pyStem (p.getLastD "")]

/-- A `*.py` file under one of the two scanned `utils` directories,
together with the outcome of parsing it with `DunderParser`:
the literal value of a top-level `__virtualname__` assignment (if any)
and whether any identifier in `SALT_DUNDERS` is referenced. -/
structure UtilsFile where
  path : PyPath
  virtualname : Option String
  usesSaltDunders : Bool
deriving Repr, DecidableEq

/-- The per-module record built by `UtilsMigrator._get_utils_module_info`. -/
structure ModuleInfo where
  modname : String
  virtualname : String
  usesSaltDunders : Bool
  migrated : Bool
  importParts : List String
deriving Repr, DecidableEq

/-- Context of the `__utils__` rewrite pass: the saltext name, the Salt
`site-packages` root (`self._salt_base_path`), the saltext project root
(`self.saltext_path`), and the scanned utils files. -/
structure UtilsCtx where
  saltextName : String
  saltBase : PyPath
  saltextPath : PyPath
  files : List UtilsFile
deriving Repr, DecidableEq

/-- `self._saltext_base_path = saltext_path / "src"`. -/
def UtilsCtx.saltextBase (c : UtilsCtx) : PyPath := c.saltextPath ++ ["src"]

/-- `self._salt_utils_path = salt_base / "salt" / "utils"`. -/
def UtilsCtx.saltUtilsPath (c : UtilsCtx) : PyPath := c.saltBase ++ ["salt", "utils"]

/-- `self._saltext_utils_path = saltext_base / "saltext" / name / "utils"`. -/
def UtilsCtx.saltextUtilsPath (c : UtilsCtx) : PyPath :=
  c.saltextBase ++ ["saltext", c.saltextName, "utils"]

/-- `Path.exists()` over the scanned files. -/
def existsPath (ctx : UtilsCtx) (p : PyPath) : Bool :=
  (ctx.files.map (·.path)).contains p

/-- One `utils_info` entry (`UtilsMigrator._get_utils_module_info` loop
body): `virtualname` defaults to the file stem, `migrated` is
`saltext_base_path in path.parents`, `import` is the dotted relative
path without its suffix. -/
def mkInfo (ctx : UtilsCtx) (base : PyPath) (f : UtilsFile) : ModuleInfo :=
  { modname := fileStem f.path
    virtualname := f.virtualname.getD (fileStem f.path)
    usesSaltDunders := f.usesSaltDunders
    migrated := strictlyUnder ctx.saltextBase f.path
    importParts := dropSuffixLast (f.path.drop base.length) }

/-- `self.utils_info`: all files under `salt/utils` (Salt tree first),
then all files under `saltext/<name>/utils`, in scan order — this is the
dict insertion order the fallback loop in `get_utils_module_details`
iterates in. -/
def utilsInfo (ctx : UtilsCtx) : List (PyPath × ModuleInfo) :=
  ((ctx.files.filter (fun f => strictlyUnder ctx.saltUtilsPath f.path)).map
    (fun f => (f.path, mkInfo ctx ctx.saltBase f)))
  ++ ((ctx.files.filter (fun f => strictlyUnder ctx.saltextUtilsPath f.path)).map
    (fun f => (f.path, mkInfo ctx ctx.saltextBase f)))

/-- Errors raised inside the `__utils__` rewrite: `KeyError` on
`self.utils_info[...]`, the `RuntimeError` lookup failure, `ValueError`
(tuple-unpack of `split(".")` / `Path.relative_to`), `IndexError`
(`parts[2]` on a too-short relative path). -/
inductive UtilsError where
  | keyError (p : PyPath)
  | lookupError (name : String)
  | valueError
  | indexError
deriving Repr, DecidableEq

/-- First `utils_info` entry for a given resolved path. -/
def lookupInfo (info : List (PyPath × ModuleInfo)) (p : PyPath) : Option ModuleInfo :=
  (info.find? (fun e => e.1 = p)).map Prod.snd

/-- `Path(*full_module_name.split(".")).with_suffix(".py")` for
`full_module_name = f"salt.utils.{name}"`.  Note
`get_utils_module_details` uses this — the *Salt-tree* relative path —
for **both** loop iterations; the loop variable `full_name` holding
`f"saltext.{name}.utils.{name}"` is never used. -/
def fullModuleRel (name : String) : PyPath :=
  let parts := (splitDots name.data).map (fun cs => (⟨cs⟩ : String))
  ["salt", "utils"] ++ parts.dropLast ++ [pyStem (parts.getLastD "") ++ ".py"]

/-- `UtilsMigrator.get_utils_module_details` (rewrite.py lines 280-301):
for each of `(saltext_base, salt_base)`, check the computed module file
path for existence and return its `utils_info` entry, else scan
`utils_info` for a module under that base whose `virtualname` matches;
raises `RuntimeError` if both trees fail. -/
def getUtilsDetails (ctx : UtilsCtx) (name : String) : Except UtilsError ModuleInfo :=
  let info := utilsInfo ctx
  let rel := fullModuleRel name
  let modname : String := ⟨(splitDots name.data).headD []⟩
  let tryBase (base : PyPath) : Option (Except UtilsError ModuleInfo) :=
    let fullPath := base ++ rel
    if existsPath ctx fullPath then
      match lookupInfo info fullPath with
      | some e => some (.ok e)
      | none => some (.error (.keyError fullPath))
    else
      match info.find? (fun e => strictlyUnder base e.1 && e.2.virtualname == modname) with
      | some e => some (.ok e.2)
      | none => none
  match tryBase ctx.saltextBase with
  | some r => r
  | none =>
    match tryBase ctx.saltBase with
    | some r => r
    | none => .error (.lookupError name)

/-- One matched `__utils__['<key>'](<args>)<trailing>` call site, as
captured by the bowler select pattern in `rewrite_utils`:
the key string (quote characters already stripped), the absolute path of
the file holding the call, the rendered argument list, any trailing
expression chained after the call, and the whitespace/text prefix of the
matched node. -/
structure CallSite where
  hasDunderModFunc : Bool
  key : String
  filename : PyPath
  args : String
  trailing : String
  leadText : String
deriving Repr, DecidableEq

/-- `DunderUtilsMigrationResult`: the three issue maps
(`_missed`, `_missed_critical`, `_rewrite`), each a
`defaultdict(set)` keyed by file path, modelled as a list of
(file path, dotted import) pairs. -/
structure DunderRes where
  missed : List (PyPath × String)
  missedCritical : List (PyPath × String)
  rewrite : List (PyPath × String)
deriving Repr, DecidableEq

/-- `set.add` into one issue map. -/
def addIssue (l : List (PyPath × String)) (k : PyPath) (v : String) :
    List (PyPath × String) :=
  if (k, v) ∈ l then l else l ++ [(k, v)]

/-- `Path(p).relative_to(base)`; raises `ValueError` when `base` is not
an ancestor. -/
def relativeTo (p base : PyPath) : Except UtilsError PyPath :=
  if base.isPrefixOf p then .ok (p.drop base.length) else .error .valueError

/-- `UtilsMigrator.fix_dunder_utils_calls` (rewrite.py lines 303-366) on
one call site.  Returns the updated result maps and, when the site is
rewritten, the added import (dotted) together with the text of the
replacement node (`<lead><import path>.<funcname>(<args>)<trailing>`);
`none` means the call site is left unchanged. -/
def fixDunder (ctx : UtilsCtx) (st : DunderRes) (site : CallSite) :
    Except UtilsError (DunderRes × Option (String × String)) :=
  if !site.hasDunderModFunc then .ok (st, none)
  else
    match splitDots site.key.data with
    | [m, f] => do
      let details ← getUtilsDetails ctx ⟨m⟩
      let imp := String.intercalate "." details.importParts
      if details.usesSaltDunders && !details.migrated then do
        let relSrc ← relativeTo site.filename ctx.saltextBase
        match relSrc.get? 2 with
        | none => .error .indexError
        | some seg => do
          let relRoot ← relativeTo site.filename ctx.saltextPath
          let st' := if seg = "utils"
            then { st with missedCritical := addIssue st.missedCritical relRoot imp }
            else { st with missed := addIssue st.missed relRoot imp }
          .ok (st', none)
      else do
        let st' ←
          if details.usesSaltDunders then do
            let relRoot ← relativeTo site.filename ctx.saltextPath
            pure { st with rewrite := addIssue st.rewrite relRoot imp }
          else
            pure st
        let newText := site.leadText ++ imp ++ "." ++ (⟨f⟩ : String) ++ "("
          ++ site.args ++ ")" ++ site.trailing
        .ok (st', some (imp, newText))
    | _ => .error .valueError

/-- The whole `rewrite_utils` modify pass: every matched call site in
query order, threading the result maps; any raised error aborts the run. -/
def processSites (ctx : UtilsCtx) (st : DunderRes) (sites : List CallSite) :
    Except UtilsError DunderRes :=
  sites.foldlM (fun st site => do
    let r ← fixDunder ctx st site
    pure r.1) st

/-! ## Invariant vocabulary and concrete runs used below -/

/-- Bound on value collisions in `renames` that a completed run in fact
guarantees (see the claims about RenameTable uniqueness): two distinct
old paths sharing a destination `v` force `v` to be itself renamed away,
or not to be a candidate path, or not to exist on disk — the guard in
`_rename` checks nothing else. -/
def ValueSafe (ctx : MigCtx) (st : RenameState) : Prop :=
  ∀ o1 o2 v, (o1, v) ∈ st.renames → (o2, v) ∈ st.renames → o1 ≠ o2 →
    v ∈ keysOf st.renames ∨ v ∉ ctx.result ∨ v ∉ ctx.fs

/-- A candidate set on which two distinct module paths are classified to
the same destination: `salt/cloud/clouds/foo.py` (provider branch drops
`cloud`) and `salt/clouds/foo.py` (generic branch drops `salt`) both map
to `src/saltext/ext/clouds/foo.py`. -/
def cloudCollisionCtx : MigCtx :=
  ⟨"ext",
    [["salt", "cloud", "clouds", "foo.py"], ["salt", "clouds", "foo.py"]],
    [["salt", "cloud", "clouds", "foo.py"], ["salt", "clouds", "foo.py"]],
    false⟩

/-- A candidate set whose first pytest-style test collides with a
non-pytest test present on disk, followed by a second pytest-style test
whose destination is free. -/
def testCollisionCtx : MigCtx :=
  ⟨"ext",
    [["tests", "pytests", "unit", "modules", "test_x.py"],
     ["tests", "unit", "modules", "test_x.py"],
     ["tests", "pytests", "unit", "modules", "test_y.py"]],
    [["tests", "unit", "modules", "test_x.py"]],
    false⟩

/-- Salt-core `salt/utils/net.py`, no `__virtualname__`, no dunders. -/
def coreNetFile : UtilsFile := ⟨["sp", "salt", "utils", "net.py"], none, false⟩

/-- Salt-core `salt/utils/net.py` that references Salt dunders. -/
def coreNetDunderFile : UtilsFile := ⟨["sp", "salt", "utils", "net.py"], none, true⟩

/-- A migrated `src/saltext/myext/utils/net.py` declaring
`__virtualname__ = "network"`. -/
def migratedNetFile : UtilsFile :=
  ⟨["proj", "src", "saltext", "myext", "utils", "net.py"], some "network", false⟩

/-- Utils context where the destination tree holds a migrated `net.py`
(under a declared virtual name) while Salt core also has `net.py`. -/
def shadowedNetCtx : UtilsCtx := ⟨"myext", ["sp"], ["proj"], [coreNetFile, migratedNetFile]⟩

/-- Utils context with only the Salt-core `net.py` (dunder-free). -/
def coreNetCtx : UtilsCtx := ⟨"myext", ["sp"], ["proj"], [coreNetFile]⟩

/-- Utils context with only the Salt-core `net.py`, which uses dunders. -/
def coreNetDunderCtx : UtilsCtx := ⟨"myext", ["sp"], ["proj"], [coreNetDunderFile]⟩

/-- Call site `__utils__['net.ip_addr'](host)` in a migrated module file. -/
def netCallSite : CallSite :=
  ⟨true, "net.ip_addr", ["proj", "src", "saltext", "myext", "mod.py"], "host", "", ""⟩

/-- The same call shape placed in a file inside the destination tree's
own `utils` directory. -/
def utilsCallerSite : CallSite :=
  ⟨true, "net.ip_addr", ["proj", "src", "saltext", "myext", "utils", "caller.py"], "host", "", ""⟩

/-- Call site `__utils__['stringutils'](x)`: key without a dot. -/
def noDotKeySite : CallSite :=
  ⟨true, "stringutils", ["proj", "src", "saltext", "myext", "mod.py"], "x", "", ""⟩

/-! ## Shared lemmas -/

theorem mem_keysOf {l : List (PyPath × PyPath)} {x : PyPath} :
    x ∈ keysOf l ↔ ∃ w, (x, w) ∈ l := by
  unfold keysOf
  constructor
  · intro h
    obtain ⟨⟨a, b⟩, hab, rfl⟩ := List.mem_map.1 h
    exact ⟨b, hab⟩
  · rintro ⟨w, hw⟩
    exact List.mem_map.2 ⟨(x, w), hw, rfl⟩

theorem mem_upsert {m : List (PyPath × PyPath)} {k v o w : PyPath} :
    (o, w) ∈ upsert m k v ↔ (o = k ∧ w = v) ∨ ((o, w) ∈ m ∧ o ≠ k) := by
  unfold upsert
  split
  · rename_i hk
    constructor
    · intro h
      obtain ⟨⟨a, b⟩, hab, hfab⟩ := List.mem_map.1 h
      simp only [] at hfab
      by_cases hak : a = k
      · rw [if_pos hak] at hfab
        cases hfab
        exact Or.inl ⟨rfl, rfl⟩
      · rw [if_neg hak] at hfab
        cases hfab
        exact Or.inr ⟨hab, hak⟩
    · rintro (⟨rfl, rfl⟩ | ⟨hm, hne⟩)
      · obtain ⟨b, hb⟩ := mem_keysOf.1 hk
        exact List.mem_map.2 ⟨(o, b), hb, by simp⟩
      · exact List.mem_map.2 ⟨(o, w), hm, by simp [hne]⟩
  · rename_i hk
    rw [List.mem_append, List.mem_singleton, Prod.mk.injEq]
    constructor
    · rintro (hm | ⟨rfl, rfl⟩)
      · exact Or.inr ⟨hm, fun hok => hk (hok ▸ mem_keysOf.2 ⟨w, hm⟩)⟩
      · exact Or.inl ⟨rfl, rfl⟩
    · rintro (⟨rfl, rfl⟩ | ⟨hm, _⟩)
      · exact Or.inr ⟨rfl, rfl⟩
      · exact Or.inl hm

theorem mem_keysOf_upsert {m : List (PyPath × PyPath)} {k v x : PyPath} :
    x ∈ keysOf (upsert m k v) ↔ x ∈ keysOf m ∨ x = k := by
  rw [mem_keysOf]
  constructor
  · rintro ⟨w, hw⟩
    rcases mem_upsert.1 hw with ⟨rfl, _⟩ | ⟨hm, _⟩
    · exact Or.inr rfl
    · exact Or.inl (mem_keysOf.2 ⟨w, hm⟩)
  · rintro (hx | rfl)
    · obtain ⟨w, hw⟩ := mem_keysOf.1 hx
      by_cases hxk : x = k
      · exact ⟨v, mem_upsert.2 (Or.inl ⟨hxk, rfl⟩)⟩
      · exact ⟨w, mem_upsert.2 (Or.inr ⟨hw, hxk⟩)⟩
    · exact ⟨v, mem_upsert.2 (Or.inl ⟨rfl, rfl⟩)⟩

theorem saltextRename_eq_ok {ctx : MigCtx} {st : RenameState} {old new : PyPath}
    {st' : RenameState} :
    saltextRename ctx st old new = .ok st' ↔
      ¬ CollisionTarget ctx st new ∧ old ≠ new ∧
        st' = { st with renames := upsert st.renames old new } := by
  unfold saltextRename
  split
  · simp [*]
  · split
    · simp [*]
    · simp only [Except.ok.injEq]
      constructor
      · intro h
        exact ⟨‹_›, ‹_›, h.symm⟩
      · intro h
        exact h.2.2.symm

theorem saltextRename_ok_of {ctx : MigCtx} {st : RenameState} {old new : PyPath}
    (hng : ¬ CollisionTarget ctx st new) (hne : old ≠ new) :
    saltextRename ctx st old new = .ok { st with renames := upsert st.renames old new } :=
  saltextRename_eq_ok.2 ⟨hng, hne, rfl⟩

theorem saltextRename_err_of {ctx : MigCtx} {st : RenameState} {old new : PyPath}
    (hc : CollisionTarget ctx st new) :
    saltextRename ctx st old new = .error (.targetPathExists new) := by
  unfold saltextRename
  rw [if_pos hc]

theorem bind_eq_ok {ε α β : Type} {e : Except ε α} {g : α → Except ε β} {b : β}
    (h : e >>= g = .ok b) : ∃ a, e = .ok a ∧ g a = .ok b := by
  cases e with
  | error err => simp [Bind.bind, Except.bind] at h
  | ok a => exact ⟨a, rfl, by simpa [Bind.bind, Except.bind] using h⟩

theorem foldlM_preserve {α σ ε : Type} {P : σ → Prop} {f : σ → α → Except ε σ}
    (hf : ∀ s a s', f s a = .ok s' → P s → P s') (l : List α) :
    ∀ {s s' : σ}, l.foldlM f s = .ok s' → P s → P s' := by
  induction l with
  | nil =>
    intro s s' h hp
    simp only [List.foldlM_nil] at h
    cases h
    exact hp
  | cons a t ih =>
    intro s s' h hp
    rw [List.foldlM_cons] at h
    obtain ⟨s1, h1, h2⟩ := bind_eq_ok h
    exact ih h2 (hf s a s1 h1 hp)

theorem valueSafe_conflicts {ctx : MigCtx} {st : RenameState}
    {c : List (PyPath × PyPath)} (hs : ValueSafe ctx st) :
    ValueSafe ctx { st with conflicts := c } := hs

theorem valueSafe_upsert {ctx : MigCtx} {st : RenameState} {old new : PyPath}
    (hng : ¬ CollisionTarget ctx st new) (hs : ValueSafe ctx st) :
    ValueSafe ctx { st with renames := upsert st.renames old new } := by
  intro o1 o2 v h1 h2 hne
  simp only [] at h1 h2
  rw [mem_upsert] at h1 h2
  unfold CollisionTarget at hng
  push_neg at hng
  have hlift : ∀ x, x ∈ keysOf st.renames →
      x ∈ keysOf (upsert st.renames old new) :=
    fun x hx => mem_keysOf_upsert.2 (Or.inl hx)
  have hnew : new ∈ keysOf (upsert st.renames old new) ∨
      new ∉ ctx.result ∨ new ∉ ctx.fs := by
    by_cases hr : new ∈ ctx.result
    · by_cases hfs : new ∈ ctx.fs
      · exact Or.inl (hlift _ (hng hr hfs))
      · exact Or.inr (Or.inr hfs)
    · exact Or.inr (Or.inl hr)
  rcases h1 with ⟨rfl, rfl⟩ | ⟨h1m, h1ne⟩
  · exact hnew
  · rcases h2 with ⟨rfl, rfl⟩ | ⟨h2m, h2ne⟩
    · exact hnew
    · rcases hs o1 o2 v h1m h2m hne with hk | hrest
      · exact Or.inl (hlift _ hk)
      · exact Or.inr hrest

theorem valueSafe_rename {ctx : MigCtx} {st st' : RenameState} {old new : PyPath}
    (h : saltextRename ctx st old new = .ok st') (hs : ValueSafe ctx st) :
    ValueSafe ctx st' := by
  obtain ⟨hng, _, rfl⟩ := saltextRename_eq_ok.1 h
  exact valueSafe_upsert hng hs

theorem valueSafe_renameColliding {ctx : MigCtx} {st st' : RenameState}
    {old new : PyPath} (h : renameColliding ctx st old new = .ok st')
    (hs : ValueSafe ctx st) : ValueSafe ctx st' := by
  unfold renameColliding at h
  split at h
  · obtain ⟨s1, h1, h2⟩ := bind_eq_ok h
    exact valueSafe_rename h2 (valueSafe_rename h1 hs)
  · cases hr : saltextRename ctx st old new with
    | ok s =>
      rw [hr] at h
      cases h
      exact valueSafe_rename hr hs
    | error e =>
      rw [hr] at h
      cases e with
      | targetPathExists p =>
        obtain ⟨s1, h1, h2⟩ := bind_eq_ok h
        exact valueSafe_rename h2 (valueSafe_rename h1 (valueSafe_conflicts hs))
      | noOpRename p => cases h

/-! ## Claim theorems -/

/-- C1 (counterexample): on the candidate set `cloudCollisionCtx` the run
completes with two distinct old paths both mapped to
`src/saltext/ext/clouds/foo.py`, with `conflicts` empty and neither
destination stem carrying a `_old`/`_pytest` disambiguation suffix —
refuting value-uniqueness as claimed. -/
theorem rename_value_collision_undetected :
    migRun cloudCollisionCtx = .ok
      ⟨[(["salt", "cloud", "clouds", "foo.py"], ["src", "saltext", "ext", "clouds", "foo.py"]),
        (["salt", "clouds", "foo.py"], ["src", "saltext", "ext", "clouds", "foo.py"])], []⟩ ∧
    (["salt", "cloud", "clouds", "foo.py"] : PyPath) ≠ ["salt", "clouds", "foo.py"] ∧
    (pyStem "foo.py").endsWith "_old" = false ∧
    (pyStem "foo.py").endsWith "_pytest" = false :=
  ⟨by decide, by decide, by decide, by decide⟩

/-- C1 (amended): in any completed run, if two distinct old paths map to
the same destination `v`, then `v` is itself recorded as an old path
being renamed away, or `v` is not in the candidate set, or `v` does not
exist on disk — the resolver detects a collision only against an
existing, unclaimed candidate destination, never against another
mapping's value. -/
theorem rename_table_value_collision_bound (ctx : MigCtx) (st : RenameState)
    (h : migRun ctx = .ok st) (o1 o2 v : PyPath)
    (h1 : (o1, v) ∈ st.renames) (h2 : (o2, v) ∈ st.renames) (hne : o1 ≠ o2) :
    v ∈ keysOf st.renames ∨ v ∉ ctx.result ∨ v ∉ ctx.fs := by
  have hstep3 : ∀ (s : RenameState) (a : PyPath) (s' : RenameState),
      (if (a.drop 2).take 1 = ["cloud"] then
        renameColliding ctx s a ("tests" :: ((a.drop 1).take 1 ++ a.drop 3))
      else .ok s) = .ok s' → ValueSafe ctx s → ValueSafe ctx s' := by
    intro s a s' hr hp
    split at hr
    · exact valueSafe_renameColliding hr hp
    · cases hr
      exact hp
  have hsafe : ValueSafe ctx st := by
    unfold migRun at h
    obtain ⟨s1, e1, h⟩ := bind_eq_ok h
    obtain ⟨s2, e2, h⟩ := bind_eq_ok h
    obtain ⟨s3, e3, h⟩ := bind_eq_ok h
    obtain ⟨s4, e4, h⟩ := bind_eq_ok h
    have p0 : ValueSafe ctx ⟨[], []⟩ := by
      intro o1 o2 v h1 h2 _
      simp at h1
    have p1 := foldlM_preserve (fun s a s' hr hp => valueSafe_rename hr hp) _ e1 p0
    have p2 := foldlM_preserve (fun s a s' hr hp => valueSafe_renameColliding hr hp) _ e2 p1
    have p3 := foldlM_preserve hstep3 _ e3 p2
    have p4 := foldlM_preserve (fun s a s' hr hp => valueSafe_rename hr hp) _ e4 p3
    exact foldlM_preserve (fun s a s' hr hp => valueSafe_rename hr hp) _ h p4
  exact hsafe o1 o2 v h1 h2 hne

/-- C1 (witness): the amended bound applied to the concrete colliding
run of `cloudCollisionCtx`. -/
theorem rename_table_value_collision_bound_witness :
    (["src", "saltext", "ext", "clouds", "foo.py"] : PyPath) ∈
        keysOf (RenameState.mk
          [(["salt", "cloud", "clouds", "foo.py"], ["src", "saltext", "ext", "clouds", "foo.py"]),
           (["salt", "clouds", "foo.py"], ["src", "saltext", "ext", "clouds", "foo.py"])] []).renames ∨
      (["src", "saltext", "ext", "clouds", "foo.py"] : PyPath) ∉ cloudCollisionCtx.result ∨
      (["src", "saltext", "ext", "clouds", "foo.py"] : PyPath) ∉ cloudCollisionCtx.fs :=
  rename_table_value_collision_bound cloudCollisionCtx
    (RenameState.mk
      [(["salt", "cloud", "clouds", "foo.py"], ["src", "saltext", "ext", "clouds", "foo.py"]),
       (["salt", "clouds", "foo.py"], ["src", "saltext", "ext", "clouds", "foo.py"])] [])
    (by decide)
    ["salt", "cloud", "clouds", "foo.py"] ["salt", "clouds", "foo.py"]
    ["src", "saltext", "ext", "clouds", "foo.py"]
    (by decide) (by decide) (by decide)

/-- C2 (counterexample): `["t.py"]` is already the destination of the
recorded rename `a.py → t.py`, so per the claim `assign(b.py, t.py)`
must fail with `TargetPathExists`; the code instead records it (values
of `renames` are never consulted by the guard). -/
theorem assign_ignores_recorded_destinations :
    ((["a.py"] : PyPath), (["t.py"] : PyPath)) ∈
        (RenameState.mk [(["a.py"], ["t.py"])] []).renames ∧
    saltextRename ⟨"ext", [], [], false⟩ (RenameState.mk [(["a.py"], ["t.py"])] [])
        ["b.py"] ["t.py"]
      = .ok (RenameState.mk [(["a.py"], ["t.py"]), (["b.py"], ["t.py"])] []) :=
  ⟨by decide, by decide⟩

/-- C2 (amended): `assign(old, new)` fails with `TargetPathExists`
exactly when `new` is a candidate path that exists unmodified on disk
and is not itself already recorded as an *old* path (a key of
`renames`); whether `new` is a *destination* of another recorded rename
is not consulted.  Otherwise, when additionally `old ≠ new`, the mapping
is recorded. -/
theorem assign_contract (ctx : MigCtx) (st : RenameState) (old new : PyPath) :
    (saltextRename ctx st old new = .error (.targetPathExists new) ↔
      new ∈ ctx.result ∧ new ∈ ctx.fs ∧ new ∉ keysOf st.renames) ∧
    (¬ CollisionTarget ctx st new → old ≠ new →
      saltextRename ctx st old new = .ok { st with renames := upsert st.renames old new }) := by
  constructor
  · unfold saltextRename
    split
    · rename_i hc
      constructor
      · intro _
        exact hc
      · intro _
        rfl
    · rename_i hc
      have hfalse : ¬ (new ∈ ctx.result ∧ new ∈ ctx.fs ∧ new ∉ keysOf st.renames) := hc
      split
      · constructor
        · intro h
          simp at h
        · intro hcon
          exact absurd hcon hfalse
      · constructor
        · intro h
          simp at h
        · intro hcon
          exact absurd hcon hfalse
  · intro hng hne
    exact saltextRename_ok_of hng hne

/-- C2 (witness): the contract applied at a concrete non-colliding
input. -/
theorem assign_contract_witness :
    ¬ CollisionTarget ⟨"ext", [], [], false⟩ (RenameState.mk [(["a.py"], ["t.py"])] []) ["u.py"] ∧
    (["b.py"] : PyPath) ≠ ["u.py"] ∧
    saltextRename ⟨"ext", [], [], false⟩ (RenameState.mk [(["a.py"], ["t.py"])] [])
        ["b.py"] ["u.py"]
      = .ok { RenameState.mk [(["a.py"], ["t.py"])] [] with
          renames := upsert (RenameState.mk [(["a.py"], ["t.py"])] []).renames ["b.py"] ["u.py"] } :=
  ⟨by decide, by decide,
    (assign_contract ⟨"ext", [], [], false⟩ (RenameState.mk [(["a.py"], ["t.py"])] [])
      ["b.py"] ["u.py"]).2 (by decide) (by decide)⟩

/-- C3 (code bug): the wrapper branch of the module classifier compares
the two-element slice `parts[1:3]` against the three-tuple
`("client", "ssh", "wrapper")`, which can never hold, so every wrapper
module path `salt/client/ssh/wrapper/X` falls through to the generic
branch and maps to `src/saltext/<name>/client/ssh/wrapper/X` — not to
`src/saltext/<name>/wrapper/X` as the claim (and the source comment)
state. -/
theorem wrapper_module_branch_dead :
    (∀ (n : String) (rest : List String),
      moduleNewPath n ("salt" :: "client" :: "ssh" :: "wrapper" :: rest)
        = ["src", "saltext", n, "client", "ssh", "wrapper"] ++ rest) ∧
    moduleNewPath "ext" ["salt", "client", "ssh", "wrapper", "foo.py"]
      ≠ ["src", "saltext", "ext", "wrapper", "foo.py"] := by
  constructor
  · intro n rest
    simp [moduleNewPath]
  · decide

/-- C8 (counterexample): with `old = new = salt/x.py` a candidate path
that exists on disk and is unclaimed, `_rename` raises
`TargetPathExists`, not the no-op rename error — the first guard is
checked before the no-op check. -/
theorem noop_rename_raises_target_exists :
    saltextRename ⟨"ext", [["salt", "x.py"]], [["salt", "x.py"]], false⟩
        (RenameState.mk [] []) ["salt", "x.py"] ["salt", "x.py"]
      = .error (.targetPathExists ["salt", "x.py"]) ∧
    MigError.targetPathExists ["salt", "x.py"] ≠ MigError.noOpRename ["salt", "x.py"] :=
  ⟨by decide, by decide⟩

/-- C8 (amended): a rename whose computed new path equals the old path
always raises an error and never records a mapping, but the error is the
no-op `ValueError` only when the path is not an existing, unclaimed
candidate destination; in that remaining case `TargetPathExists` is
raised first. -/
theorem noop_rename_error_precedence (ctx : MigCtx) (st : RenameState) (old : PyPath) :
    saltextRename ctx st old old =
      .error (if CollisionTarget ctx st old then .targetPathExists old
              else .noOpRename old) := by
  by_cases hc : CollisionTarget ctx st old
  · rw [if_pos hc, saltextRename_err_of hc]
  · rw [if_neg hc]
    unfold saltextRename
    rw [if_neg hc, if_pos rfl]

/-- C4 (counterexample): running `testCollisionCtx`, the first
pytest-style test collides and is disambiguated (with the conflict
recorded), but the escalation does not persist: the second pytest-style
test, whose destination is free, is recorded *directly*, without the
`_pytest`/`_old` suffixes a persistent escalation would produce —
`avoid_collisions` is a local variable of each call. -/
theorem collision_escalation_not_persistent :
    migRun testCollisionCtx = .ok
      ⟨[(["tests", "unit", "modules", "test_x.py"],
         ["tests", "unit", "modules", "test_x_old.py"]),
        (["tests", "pytests", "unit", "modules", "test_x.py"],
         ["tests", "unit", "modules", "test_x_pytest.py"]),
        (["tests", "pytests", "unit", "modules", "test_y.py"],
         ["tests", "unit", "modules", "test_y.py"])],
       [(["tests", "pytests", "unit", "modules", "test_x.py"],
         ["tests", "unit", "modules", "test_x.py"])]⟩ ∧
    stemSuffix ["tests", "unit", "modules", "test_y.py"] "_pytest"
      = ["tests", "unit", "modules", "test_y_pytest.py"] ∧
    ((["tests", "pytests", "unit", "modules", "test_y.py"] : PyPath),
      (["tests", "unit", "modules", "test_y_pytest.py"] : PyPath)) ∉
        [((["tests", "unit", "modules", "test_x.py"] : PyPath),
          (["tests", "unit", "modules", "test_x_old.py"] : PyPath)),
         (["tests", "pytests", "unit", "modules", "test_x.py"],
          ["tests", "unit", "modules", "test_x_pytest.py"]),
         (["tests", "pytests", "unit", "modules", "test_y.py"],
          ["tests", "unit", "modules", "test_y.py"])] :=
  ⟨by decide, by decide, by decide⟩

/-- C4 (amended): with collision avoidance disabled, a colliding direct
historic-test assignment records the pair in `conflicts` and takes the
disambiguation branch (`_old` for the occupied destination, `_pytest`
for the pytest-style old path) — but the escalation holds only for the
current call: a subsequent call whose destination does not collide is
recorded directly with no suffixing and no conflict entry. -/
theorem colliding_test_policy (ctx : MigCtx) (st : RenameState)
    (old new old2 new2 : PyPath)
    (hA : ctx.avoidCollisions = false)
    (hC : CollisionTarget ctx st new)
    (hO : stemSuffix new "_old" ∉ ctx.result)
    (hP : stemSuffix new "_pytest" ∉ ctx.result)
    (hne1 : new ≠ stemSuffix new "_old")
    (hne2 : old ≠ stemSuffix new "_pytest")
    (hD : new2 ∉ ctx.result)
    (hne3 : old2 ≠ new2) :
    renameColliding ctx st old new = .ok
      ⟨upsert (upsert st.renames new (stemSuffix new "_old")) old (stemSuffix new "_pytest"),
        upsert st.conflicts old new⟩ ∧
    renameColliding ctx
        ⟨upsert (upsert st.renames new (stemSuffix new "_old")) old (stemSuffix new "_pytest"),
          upsert st.conflicts old new⟩ old2 new2
      = .ok
      ⟨upsert (upsert (upsert st.renames new (stemSuffix new "_old")) old
          (stemSuffix new "_pytest")) old2 new2,
        upsert st.conflicts old new⟩ := by
  constructor
  · unfold renameColliding
    rw [if_neg (by simp [hA])]
    rw [saltextRename_err_of hC]
    dsimp only
    rw [saltextRename_ok_of (fun h => hO h.1) hne1]
    dsimp only [Bind.bind, Except.bind]
    exact saltextRename_ok_of (fun h => hP h.1) hne2
  · unfold renameColliding
    rw [if_neg (by simp [hA])]
    rw [saltextRename_ok_of (fun h => hD h.1) hne3]

/-- C4 (witness): the amended policy applied to the colliding first
test of `testCollisionCtx` followed by the non-colliding second test. -/
theorem colliding_test_policy_witness :
    renameColliding testCollisionCtx ⟨[], []⟩
        ["tests", "pytests", "unit", "modules", "test_x.py"]
        ["tests", "unit", "modules", "test_x.py"] = .ok
      ⟨upsert (upsert [] ["tests", "unit", "modules", "test_x.py"]
          (stemSuffix ["tests", "unit", "modules", "test_x.py"] "_old"))
          ["tests", "pytests", "unit", "modules", "test_x.py"]
          (stemSuffix ["tests", "unit", "modules", "test_x.py"] "_pytest"),
        upsert [] ["tests", "pytests", "unit", "modules", "test_x.py"]
          ["tests", "unit", "modules", "test_x.py"]⟩ ∧
    renameColliding testCollisionCtx
        ⟨upsert (upsert [] ["tests", "unit", "modules", "test_x.py"]
            (stemSuffix ["tests", "unit", "modules", "test_x.py"] "_old"))
            ["tests", "pytests", "unit", "modules", "test_x.py"]
            (stemSuffix ["tests", "unit", "modules", "test_x.py"] "_pytest"),
          upsert [] ["tests", "pytests", "unit", "modules", "test_x.py"]
            ["tests", "unit", "modules", "test_x.py"]⟩
        ["tests", "pytests", "unit", "modules", "test_y.py"]
        ["tests", "unit", "modules", "test_y.py"]
      = .ok
      ⟨upsert (upsert (upsert [] ["tests", "unit", "modules", "test_x.py"]
            (stemSuffix ["tests", "unit", "modules", "test_x.py"] "_old"))
            ["tests", "pytests", "unit", "modules", "test_x.py"]
            (stemSuffix ["tests", "unit", "modules", "test_x.py"] "_pytest"))
          ["tests", "pytests", "unit", "modules", "test_y.py"]
          ["tests", "unit", "modules", "test_y.py"],
        upsert [] ["tests", "pytests", "unit", "modules", "test_x.py"]
          ["tests", "unit", "modules", "test_x.py"]⟩ :=
  colliding_test_policy testCollisionCtx ⟨[], []⟩
    ["tests", "pytests", "unit", "modules", "test_x.py"]
    ["tests", "unit", "modules", "test_x.py"]
    ["tests", "pytests", "unit", "modules", "test_y.py"]
    ["tests", "unit", "modules", "test_y.py"]
    (by decide) (by decide) (by decide) (by decide) (by decide) (by decide)
    (by decide) (by decide)

/-! ## Idempotence of the module-import rewriter (C9) -/

theorem salt_not_isPrefixOf_saltext {m rest : List String} :
    ("salt" :: m).isPrefixOf ("saltext" :: rest) = false := by
  rw [List.isPrefixOf_cons₂]
  rw [show (("salt" : String) == "saltext") = false from by decide]
  rw [Bool.false_and]

theorem rewriteStep_dotted (name : String) (m segs : List String) :
    rewriteStep name m (.dotted segs) =
      if ("salt" :: m).isPrefixOf segs then
        .dotted ("saltext" :: name :: m ++ segs.drop (m.length + 1))
      else .dotted segs := rfl

theorem rewriteStep_fromImport (name : String) (m parent : List String) (leaf : String) :
    rewriteStep name m (.fromImport parent leaf) =
      if parent = "salt" :: m.dropLast ∧ some leaf = m.getLast? then
        .fromImport ("saltext" :: name :: m.dropLast) leaf
      else .fromImport parent leaf := rfl

theorem rewriteStep_fixes {name : String} {m : List String} {r : PyRef}
    (h : rewriteStep name m r ≠ r) (m' : List String) :
    rewriteStep name m' (rewriteStep name m r) = rewriteStep name m r := by
  cases r with
  | dotted segs =>
    by_cases hpre : ("salt" :: m).isPrefixOf segs = true
    · have hout : rewriteStep name m (.dotted segs)
          = .dotted ("saltext" :: name :: m ++ segs.drop (m.length + 1)) := by
        rw [rewriteStep_dotted, if_pos hpre]
      rw [hout, rewriteStep_dotted,
        if_neg (by simp [salt_not_isPrefixOf_saltext])]
    · have hout : rewriteStep name m (.dotted segs) = .dotted segs := by
        rw [rewriteStep_dotted, if_neg hpre]
      exact absurd hout h
  | fromImport parent leaf =>
    by_cases hc : parent = "salt" :: m.dropLast ∧ some leaf = m.getLast?
    · have hout : rewriteStep name m (.fromImport parent leaf)
          = .fromImport ("saltext" :: name :: m.dropLast) leaf := by
        rw [rewriteStep_fromImport, if_pos hc]
      have hne : ("saltext" :: name :: m.dropLast) ≠ ("salt" :: m'.dropLast) := by
        intro hcc
        injection hcc with h1 h2
        exact absurd h1 (by decide)
      rw [hout, rewriteStep_fromImport, if_neg (fun hcc => hne hcc.1)]
    · have hout : rewriteStep name m (.fromImport parent leaf)
          = .fromImport parent leaf := by
        rw [rewriteStep_fromImport, if_neg hc]
      exact absurd hout h

theorem rewriteRef_of_fixes {name : String} {mods : List (List String)} {r : PyRef}
    (h : ∀ m ∈ mods, rewriteStep name m r = r) : rewriteRef name mods r = r := by
  induction mods with
  | nil => rfl
  | cons m ms ih =>
    unfold rewriteRef at ih ⊢
    rw [List.foldl_cons, h m (by simp)]
    exact ih (fun a ha => h a (by simp [ha]))

theorem rewriteRef_cases (name : String) (mods : List (List String)) (r : PyRef) :
    rewriteRef name mods r = r ∨
      ∀ m', rewriteStep name m' (rewriteRef name mods r) = rewriteRef name mods r := by
  induction mods generalizing r with
  | nil => exact Or.inl rfl
  | cons m ms ih =>
    have hcons : rewriteRef name (m :: ms) r = rewriteRef name ms (rewriteStep name m r) := by
      unfold rewriteRef
      rw [List.foldl_cons]
    by_cases hm : rewriteStep name m r = r
    · rw [hcons, hm]
      exact ih r
    · have hfix := rewriteStep_fixes hm
      have hstay : rewriteRef name ms (rewriteStep name m r) = rewriteStep name m r :=
        rewriteRef_of_fixes (fun a _ => hfix a)
      refine Or.inr (fun m' => ?_)
      rw [hcons, hstay]
      exact hfix m'

theorem rewriteRef_idem (name : String) (mods : List (List String)) (r : PyRef) :
    rewriteRef name mods (rewriteRef name mods r) = rewriteRef name mods r := by
  rcases rewriteRef_cases name mods r with h | h
  · rw [h]
    exact h
  · exact rewriteRef_of_fixes (fun m _ => h m)

/-- C9: `rewrite_module_imports` is idempotent — for every saltext name,
every set of migrated module paths and every source tree, running the
rewrite twice produces the same output as running it once: every
reference it changes gets the `saltext.<name>` prefix, which no
`salt.<module>` selector of a second run can match again. -/
theorem import_rewriter_idempotent (name : String) (mods : List (List String))
    (t : List PyRef) :
    rewriteTree name mods (rewriteTree name mods t) = rewriteTree name mods t := by
  induction t with
  | nil => rfl
  | cons a t ih =>
    unfold rewriteTree at ih ⊢
    simp only [List.map_cons, List.cons.injEq]
    exact ⟨rewriteRef_idem name mods a, ih⟩

/-! ## Lemmas on `splitDots` and `relativeTo` -/

theorem splitDots_nil : splitDots [] = [[]] := rfl

theorem splitDots_cons (c : Char) (rest : List Char) :
    splitDots (c :: rest) =
      if c = '.' then [] :: splitDots rest
      else
        match splitDots rest with
        | [] => [[c]]
        | h :: t => (c :: h) :: t := by
  rw [splitDots]

theorem splitDots_ne_nil (cs : List Char) : splitDots cs ≠ [] := by
  cases cs with
  | nil => simp [splitDots_nil]
  | cons c rest =>
    rw [splitDots_cons]
    split
    · simp
    · split <;> simp

theorem splitDots_length (cs : List Char) :
    (splitDots cs).length = cs.count '.' + 1 := by
  induction cs with
  | nil => simp [splitDots_nil]
  | cons c rest ih =>
    rw [splitDots_cons]
    by_cases hc : c = '.'
    · subst hc
      simp [List.count_cons, ih]
    · cases hsr : splitDots rest with
      | nil => exact absurd hsr (splitDots_ne_nil rest)
      | cons h t =>
        rw [hsr] at ih
        simp only [List.length_cons] at ih
        simp [hc, hsr, List.count_cons, ← ih]

theorem relativeTo_append (base l : List String) :
    relativeTo (base ++ l) base = .ok l := by
  unfold relativeTo
  rw [if_pos (List.isPrefixOf_iff_prefix.2 (List.prefix_append base l))]
  rw [List.drop_left]

/-! ## Claim theorems for the `__utils__` engine -/

/-- C5 (code bug): resolving `net` while the destination tree holds an
exact-path utils module `src/saltext/myext/utils/net.py` (declaring
`__virtualname__ = "network"`).  Per the claim the destination tree's
exact module path is checked first, so the migrated module must be
returned; but `get_utils_module_details` computes the candidate path of
*both* loop iterations from `full_module_name` (`salt.utils.net`) —
the loop variable `full_name` is unused — so the destination-tree exact
path check probes `<src>/salt/utils/net.py`, misses, the virtual-name
fallback misses (`"network" ≠ "net"`), and the Salt-core module is
returned instead. -/
theorem utils_lookup_misses_exact_destination_module :
    getUtilsDetails shadowedNetCtx "net"
      = .ok ⟨"net", "net", false, false, ["salt", "utils", "net"]⟩ ∧
    migratedNetFile ∈ shadowedNetCtx.files ∧
    migratedNetFile.path
      = shadowedNetCtx.saltextBase ++ ["saltext", "myext", "utils", "net.py"] ∧
    (lookupInfo (utilsInfo shadowedNetCtx) migratedNetFile.path).isSome = true ∧
    (ModuleInfo.mk "net" "net" false false ["salt", "utils", "net"]).migrated = false :=
  ⟨by decide, by decide, by decide, by decide, by decide⟩

/-- C10: a `__utils__` call site whose key does not contain exactly one
dot makes the tuple unpack of `dunder_mod_func.split(".")` raise an
unhandled `ValueError`, aborting the whole run — the site is neither
classified nor skipped. -/
theorem malformed_utils_key_aborts (ctx : UtilsCtx) (st : DunderRes) (site : CallSite)
    (others : List CallSite)
    (hCap : site.hasDunderModFunc = true)
    (hKey : site.key.data.count '.' ≠ 1) :
    fixDunder ctx st site = .error .valueError ∧
    processSites ctx st (site :: others) = .error .valueError := by
  have h1 : fixDunder ctx st site = .error .valueError := by
    unfold fixDunder
    rw [hCap]
    rw [if_neg (by decide)]
    cases hsd : splitDots site.key.data with
    | nil => exact absurd hsd (splitDots_ne_nil _)
    | cons a t =>
      cases t with
      | nil =>
        rfl
      | cons b t2 =>
        cases t2 with
        | nil =>
          exfalso
          have hlen := splitDots_length site.key.data
          rw [hsd] at hlen
          simp only [List.length_cons, List.length_nil] at hlen
          omega
        | cons c3 t3 =>
          rfl
  refine ⟨h1, ?_⟩
  unfold processSites
  rw [List.foldlM_cons]
  simp [h1, Bind.bind, Except.bind]

/-- C10 (witness): the key `'stringutils'` (no dot) aborts the run. -/
theorem malformed_utils_key_aborts_witness :
    fixDunder coreNetCtx ⟨[], [], []⟩ noDotKeySite = .error .valueError ∧
    processSites coreNetCtx ⟨[], [], []⟩ [noDotKeySite] = .error .valueError :=
  malformed_utils_key_aborts coreNetCtx ⟨[], [], []⟩ noDotKeySite [] (by decide) (by decide)

/-- C6: for a call site whose resolved callee uses Salt dunders and is
not migrated, placed in a relocated file `src/saltext/<name>/<u>/…` of
the destination tree, the call site is left unchanged (`none`), exactly
one issue is recorded keyed by the calling file's project-relative path
— into `_missed_critical` when the file sits in the destination tree's
own utils directory (`u = "utils"`), into `_missed` otherwise — and the
call returns normally, so processing continues with the remaining call
sites. -/
theorem missed_dunder_call_classified (ctx : UtilsCtx) (st : DunderRes) (site : CallSite)
    (m f : List Char) (d : ModuleInfo) (u : String) (rest : List String)
    (others : List CallSite)
    (hCap : site.hasDunderModFunc = true)
    (hKey : splitDots site.key.data = [m, f])
    (hRes : getUtilsDetails ctx ⟨m⟩ = .ok d)
    (hDun : d.usesSaltDunders = true)
    (hMig : d.migrated = false)
    (hFile : site.filename = ctx.saltextBase ++ "saltext" :: ctx.saltextName :: u :: rest) :
    fixDunder ctx st site = .ok
      ((if u = "utils"
        then { st with missedCritical :=
            (addIssue st.missedCritical
              ("src" :: "saltext" :: ctx.saltextName :: u :: rest)
              (String.intercalate "." d.importParts)) }
        else { st with missed :=
            (addIssue st.missed
              ("src" :: "saltext" :: ctx.saltextName :: u :: rest)
              (String.intercalate "." d.importParts)) }), none) ∧
    processSites ctx st (site :: others) = processSites ctx
      (if u = "utils"
        then { st with missedCritical :=
            (addIssue st.missedCritical
              ("src" :: "saltext" :: ctx.saltextName :: u :: rest)
              (String.intercalate "." d.importParts)) }
        else { st with missed :=
            (addIssue st.missed
              ("src" :: "saltext" :: ctx.saltextName :: u :: rest)
              (String.intercalate "." d.importParts)) }) others := by
  have hbase : site.filename
      = ctx.saltextPath ++ "src" :: "saltext" :: ctx.saltextName :: u :: rest := by
    rw [hFile]
    simp [UtilsCtx.saltextBase]
  have h1 : fixDunder ctx st site = .ok
      ((if u = "utils"
        then { st with missedCritical :=
            (addIssue st.missedCritical
              ("src" :: "saltext" :: ctx.saltextName :: u :: rest)
              (String.intercalate "." d.importParts)) }
        else { st with missed :=
            (addIssue st.missed
              ("src" :: "saltext" :: ctx.saltextName :: u :: rest)
              (String.intercalate "." d.importParts)) }), none) := by
    simp only [fixDunder, hCap, Bool.not_true, Bool.false_eq_true, if_false, hKey]
    rw [hRes]
    simp only [Bind.bind, Except.bind, hDun, hMig, Bool.not_false, Bool.and_true, if_true]
    rw [hFile, relativeTo_append]
    rw [← hFile, hbase, relativeTo_append]
    rfl
  refine ⟨h1, ?_⟩
  unfold processSites
  rw [List.foldlM_cons]
  simp only [h1, Bind.bind, Except.bind]
  rfl

/-- C6 (witness): `__utils__['net.ip_addr'](host)` in
`src/saltext/myext/utils/caller.py` where Salt-core `net.py` uses
dunders: recorded as critical, call site untouched, run continues. -/
theorem missed_dunder_call_classified_witness :
    fixDunder coreNetDunderCtx ⟨[], [], []⟩ utilsCallerSite = .ok
      ((if "utils" = "utils"
        then { (⟨[], [], []⟩ : DunderRes) with missedCritical :=
            (addIssue []
              ("src" :: "saltext" :: coreNetDunderCtx.saltextName :: "utils" :: ["caller.py"])
              (String.intercalate "."
                (ModuleInfo.mk "net" "net" true false ["salt", "utils", "net"]).importParts)) }
        else { (⟨[], [], []⟩ : DunderRes) with missed :=
            (addIssue []
              ("src" :: "saltext" :: coreNetDunderCtx.saltextName :: "utils" :: ["caller.py"])
              (String.intercalate "."
                (ModuleInfo.mk "net" "net" true false ["salt", "utils", "net"]).importParts)) }),
        none) ∧
    processSites coreNetDunderCtx ⟨[], [], []⟩ [utilsCallerSite] = processSites coreNetDunderCtx
      (if "utils" = "utils"
        then { (⟨[], [], []⟩ : DunderRes) with missedCritical :=
            (addIssue []
              ("src" :: "saltext" :: coreNetDunderCtx.saltextName :: "utils" :: ["caller.py"])
              (String.intercalate "."
                (ModuleInfo.mk "net" "net" true false ["salt", "utils", "net"]).importParts)) }
        else { (⟨[], [], []⟩ : DunderRes) with missed :=
            (addIssue []
              ("src" :: "saltext" :: coreNetDunderCtx.saltextName :: "utils" :: ["caller.py"])
              (String.intercalate "."
                (ModuleInfo.mk "net" "net" true false ["salt", "utils", "net"]).importParts)) })
      [] :=
  missed_dunder_call_classified coreNetDunderCtx ⟨[], [], []⟩ utilsCallerSite
    "net".data "ip_addr".data (ModuleInfo.mk "net" "net" true false ["salt", "utils", "net"])
    "utils" ["caller.py"] []
    (by decide) (by decide) (by decide) (by decide) (by decide) (by decide)

/-- C7 (counterexample): `__utils__['net.ip_addr'](host)` with
dunder-free `net.py` resolved in Salt core is rewritten to the
fully-qualified call `salt.utils.net.ip_addr(host)` together with an
added import of `salt.utils.net` — not to the bare `net.ip_addr(host)`
with an import of `net` stated by the claim. -/
theorem rewritable_call_fully_qualified :
    fixDunder coreNetCtx ⟨[], [], []⟩ netCallSite
      = .ok (⟨[], [], []⟩, some ("salt.utils.net", "salt.utils.net.ip_addr(host)")) ∧
    "salt.utils.net.ip_addr(host)" ≠ "net.ip_addr(host)" ∧
    "salt.utils.net" ≠ "net" :=
  ⟨by decide, by decide, by decide⟩

/-- C7 (amended): a call site whose resolved callee does not use Salt
dunders is rewritten in place to a direct call through the callee's
fully-qualified dotted import path, preserving the original argument
list and any trailing chained expression, the full dotted module path
is imported, and no issue is recorded. -/
theorem rewritable_dunder_call (ctx : UtilsCtx) (st : DunderRes) (site : CallSite)
    (m f : List Char) (d : ModuleInfo)
    (hCap : site.hasDunderModFunc = true)
    (hKey : splitDots site.key.data = [m, f])
    (hRes : getUtilsDetails ctx ⟨m⟩ = .ok d)
    (hDun : d.usesSaltDunders = false) :
    fixDunder ctx st site = .ok (st,
      some (String.intercalate "." d.importParts,
        site.leadText ++ String.intercalate "." d.importParts ++ "." ++ (⟨f⟩ : String)
          ++ "(" ++ site.args ++ ")" ++ site.trailing)) := by
  simp only [fixDunder, hCap, Bool.not_true, Bool.false_eq_true, if_false, hKey]
  rw [hRes]
  simp only [Bind.bind, Except.bind, hDun, Bool.false_and, Bool.not_false, if_false]
  rfl

/-- C7 (witness): the rewrite applied to the concrete
`__utils__['net.ip_addr'](host)` site against the dunder-free core
`net.py`. -/
theorem rewritable_dunder_call_witness :
    fixDunder coreNetCtx ⟨[], [], []⟩ netCallSite = .ok ((⟨[], [], []⟩ : DunderRes),
      some (String.intercalate "."
          (ModuleInfo.mk "net" "net" false false ["salt", "utils", "net"]).importParts,
        netCallSite.leadText ++ String.intercalate "."
            (ModuleInfo.mk "net" "net" false false ["salt", "utils", "net"]).importParts
          ++ "." ++ (⟨"ip_addr".data⟩ : String)
          ++ "(" ++ netCallSite.args ++ ")" ++ netCallSite.trailing)) :=
  rewritable_dunder_call coreNetCtx ⟨[], [], []⟩ netCallSite
    "net".data "ip_addr".data (ModuleInfo.mk "net" "net" false false ["salt", "utils", "net"])
    (by decide) (by decide) (by decide) (by decide)

end SaltextMigrate
